import Mathlib

/-!
Verification of `ezstat.py`: a shallow embedding of the
dispatch function `_call`, the `Statistics` dict subclass and its `do`
method, and the `MappingStatistics` subclass, together with theorems
about the claims of the specification.

Modelling conventions:
* Python values computed by statistics are modelled by `Value`
  (integers stand for the numeric types of Python, strings, tuples, None).
* A subject object is a finite list of named attributes; an attribute
  is either a plain value or a zero-argument callable (a bound method).
* A statistic definition is the tagged union that `_call` dispatches on
  with `isinstance`: a string, a callable taking the subject, a numeric
  constant, a tuple constant, or any other Python value (the `else`
  branch).  The `other` constructor carries the truthiness of the value,
  the only observation the source makes of such a value.
* Exceptions are modelled by `Err`; fallible code returns `Except`.
-/

/-- A computed Python value: number, string, tuple or None. -/
inductive Value where
  | int : Int → Value
  | str : String → Value
  | tuple : List Value → Value
  | pyNone : Value

/-- A python exception: `ValueError` (raised by `_call` for a missing
attribute), `TypeError`, `NameError` (raised when an undefined global
name is evaluated), and arbitrary exceptions raised by user callables. -/
inductive Err where
  | valueError : String → Err
  | typeError : String → Err
  | nameError : String → Err
  | userError : String → Err
deriving DecidableEq

/-- An attribute of a subject object: a plain value, or a bound
zero-argument callable (which may itself raise). -/
inductive Attr where
  | val : Value → Attr
  | method : (Unit → Except Err Value) → Attr

/-- A subject object: a finite collection of named attributes. -/
structure Obj where
  attrs : List (String × Attr)

/-- Attribute lookup on a subject: first binding wins.
`hasattr obj s` of the source is `lookupAttr obj.attrs s ≠ none` and
`getattr obj s` is the found attribute. -/
def lookupAttr : List (String × Attr) → String → Option Attr
  | [], _ => none
  | (n, t) :: rest, a => if n = a then some t else lookupAttr rest a

/-- A statistic definition, the tagged union dispatched on by `_call`:
`str` (attribute name), `callable` (function of the subject),
`constInt` (a Python `int` or `float` constant), `constTuple`
(a tuple constant), or `other` (any other Python value, carrying only
its truthiness, the sole observation the source makes of it). -/
inductive Defn where
  | str : String → Defn
  | callable : (Obj → Except Err Value) → Defn
  | constInt : Int → Defn
  | constTuple : List Value → Defn
  | other : Bool → Defn

/-- Embeds `_call(s, obj)` of `ezstat.py` (lines 61-86).

* string: `if not hasattr(obj, s): raise ValueError(...)`, then
  `f = getattr(obj, s)`; `f()` if callable else `f`.  (The two-step
  `hasattr`/`getattr` is the single `lookupAttr` match here.)
* callable: `s(obj)`.
* `int`/`float`/`tuple` instance: returned unchanged (deprecated branch).
* otherwise the source executes
  `raise TypeError(f"The type of the value corresponding to key ` + `{k}` + ` ...")`
  but the name `k` is not defined in `_call`, so evaluating the f-string
  raises `NameError: name k is not defined` before any `TypeError`
  is constructed. -/
def _call (s : Defn) (obj : Obj) : Except Err Value :=
  match s with
  | .str a =>
      match lookupAttr obj.attrs a with
      | none => .error (.valueError ("the object has no attribute " ++ a))
      | some (.method g) => g ()
      | some (.val v) => .ok v
  | .callable f => f obj
  | .constInt n => .ok (.int n)
  | .constTuple t => .ok (.tuple t)
  | .other _ => .error (.nameError "name k is not defined")

/-- Python `dict` lookup on the embedded result mapping. -/
def dictLookup : List (String × Value) → String → Option Value
  | [], _ => none
  | (n, v) :: rest, k => if n = k then some v else dictLookup rest k

/-- Python `dict` assignment `res[k] = v`: overwrite in place if the
key is present, otherwise append at the end (insertion order). -/
def dictInsert : List (String × Value) → String → Value → List (String × Value)
  | [], k, v => [(k, v)]
  | (n, w) :: rest, k, v =>
      if n = k then (k, v) :: rest else (n, w) :: dictInsert rest k v

/-- Decimal digits of `n`, most significant first, with explicit fuel
(the fuel `n + 1` always suffices since `n / 10 < n` for `n ≥ 10`).
Used to embed the decimal rendering of the index in the f-string
`f\x7bk\x7d-\x7bi\x7d` of `Statistics.do`. -/
def decDigitsAux : Nat → Nat → List Char
  | 0, _ => []
  | fuel + 1, n =>
      if n < 10 then [Char.ofNat (48 + n)]
      else decDigitsAux fuel (n / 10) ++ [Char.ofNat (48 + n % 10)]

/-- Decimal digits of `n`, most significant first. -/
def decDigits (n : Nat) : List Char := decDigitsAux (n + 1) n

/-- Decimal rendering of a natural number, as Python `str(i)` renders
the index in `f\x7bk\x7d-\x7bi\x7d`. -/
def natToString (n : Nat) : String := String.mk (decDigits n)

/-- The key `f\x7bk\x7d-\x7bi\x7d` produced by the tuple-splitting loop. -/
def splitKey (k : String) (i : Nat) : String := k ++ "-" ++ natToString i

/-- The tuple-splitting loop of `Statistics.do` (lines 121-122):
`for i, ri in enumerate(r): res[f\x7bk\x7d-\x7bi\x7d] = ri`,
threading the running index `i` and the result dict. -/
def splitInsertFrom (k : String) : Nat → List (String × Value) → List Value → List (String × Value)
  | _, res, [] => res
  | i, res, r :: rest => splitInsertFrom k (i + 1) (dictInsert res (splitKey k i) r) rest

/-- The body of the `for k, s in self.items()` loop of `Statistics.do`
(lines 114-125), threading the result dict `res` through the remaining
entries; the first exception aborts the whole computation. -/
def applyAux (obj : Obj) (split : Bool) : List (String × Defn) → List (String × Value) → Except Err (List (String × Value))
  | [], res => .ok res
  | (k, s) :: rest, res =>
      match _call s obj with
      | .error e => .error e
      | .ok r =>
          let res' :=
            if split then
              match r with
              | .tuple elems => splitInsertFrom k 0 res elems
              | _ => dictInsert res k r
            else dictInsert res k r
          applyAux obj split rest res'

/-- Embeds `Statistics.do(self, obj, split=False)` (lines 92-125); a
`Statistics` is its ordered list of `(name, definition)` items.
Lean reserves `do`, so the method is named `apply` as in the spec. -/
def Statistics.apply (self : List (String × Defn)) (obj : Obj) (split : Bool) : Except Err (List (String × Value)) :=
  applyAux obj split self []

/-- Python truthiness of a statistic definition, as tested by
`if self.key:` in `MappingStatistics.do`. -/
def Defn.truthy : Defn → Bool
  | .str s => s != ""
  | .callable _ => true
  | .constInt n => n != 0
  | .constTuple t => !t.isEmpty
  | .other b => b

/-- Truthiness of the stored key (`self._key`), which defaults to
Python `None` (modelled by `none`), a falsy value. -/
def keyTruthy : Option Defn → Bool
  | none => false
  | some kd => kd.truthy

/-- Embeds `MappingStatistics.do(self, obj, split=False)` (lines
165-171).  When `self.key` is truthy the source executes
`obj = np.array([_call(self.key, k) for k in obj])`, but `ezstat.py`
contains no import statement, so evaluating the global name `np`
raises `NameError: name np is not defined` before the comprehension
runs; otherwise it delegates to `super().do(obj, split=split)`. -/
def MappingStatistics.apply (key : Option Defn) (self : List (String × Defn)) (obj : Obj) (split : Bool) : Except Err (List (String × Value)) :=
  if keyTruthy key then .error (.nameError "name np is not defined")
  else Statistics.apply self obj split

/-! ## Concrete subjects used by the witnesses -/

/-- A sample subject with a plain attribute `size` and a callable
attribute `area`. -/
def obj0 : Obj :=
  ⟨[("size", .val (.int 5)), ("area", .method fun _ => .ok (.int 9))]⟩

/-! ## Claims -/

/-- Claim C1: for every string definition `a` and subject `x`, `_call`
resolves `a` as an attribute name on `x`: if `x` has no attribute
named `a` it fails with the missing-attribute error (`ValueError` in
the source, called AttributeMissing by the spec); if the attribute is callable
it returns the result of invoking it with no arguments; otherwise it
returns the value of the attribute unchanged. -/
theorem call_str_attribute_dispatch (a : String) (x : Obj) :
    (lookupAttr x.attrs a = none →
      _call (.str a) x = .error (.valueError ("the object has no attribute " ++ a))) ∧
    (∀ g, lookupAttr x.attrs a = some (.method g) → _call (.str a) x = g ()) ∧
    (∀ v, lookupAttr x.attrs a = some (.val v) → _call (.str a) x = .ok v) := by
  refine ⟨fun h => ?_, fun g h => ?_, fun v h => ?_⟩ <;> simp only [_call] <;> rw [h]

/-- Witness for C1 at the concrete subject `obj0`: a plain attribute,
a callable attribute, and a missing attribute. -/
theorem call_str_attribute_dispatch_witness :
    _call (.str "size") obj0 = .ok (.int 5) ∧
    _call (.str "area") obj0 = .ok (.int 9) ∧
    _call (.str "shape") obj0 =
      .error (.valueError ("the object has no attribute " ++ "shape")) := by
  refine ⟨?_, ?_, ?_⟩
  · exact (call_str_attribute_dispatch "size" obj0).2.2 (.int 5) rfl
  · exact (call_str_attribute_dispatch "area" obj0).2.1 (fun _ => .ok (.int 9)) rfl
  · exact (call_str_attribute_dispatch "shape" obj0).1 rfl

/-- Claim C2: for every callable definition `f` and subject `x`,
`_call` returns `f x` (the callable invoked with the subject as sole
argument), so a set `[(k, f)]` applied to `x` yields the mapping whose
entry for `k` equals `f x`. -/
theorem call_callable_applies_subject (f : Obj → Except Err Value) (x : Obj) (k : String) :
    _call (.callable f) x = f x ∧
    ∀ v, f x = .ok v →
      Statistics.apply [(k, .callable f)] x false = .ok [(k, v)] ∧
      dictLookup [(k, v)] k = some v := by
  refine ⟨rfl, fun v h => ⟨?_, ?_⟩⟩
  · simp [Statistics.apply, applyAux, _call, h, dictInsert]
  · simp [dictLookup]

/-- Witness for C2: a concrete callable returning `7` on `obj0`. -/
theorem call_callable_applies_subject_witness :
    Statistics.apply [("mean", .callable fun _ => .ok (.int 7))] obj0 false =
      .ok [("mean", .int 7)] :=
  ((call_callable_applies_subject (fun _ => .ok (.int 7)) obj0 "mean").2 (.int 7) rfl).1

/-- Claim C5: a `MappingStatistics` with no key set (key is Python
`None`, the default) behaves identically to a plain `Statistics` with
the same entries on the same subject and split flag. -/
theorem mappingApply_no_key_eq_apply (self : List (String × Defn)) (x : Obj) (split : Bool) :
    MappingStatistics.apply none self x split = Statistics.apply self x split := rfl

/-- Claim C7 (supporting theorem for the code bug): for a definition
that is neither a string, nor callable, nor an `int`/`float`/`tuple`
constant, `_call` raises `NameError`, not the `TypeError` that line 84
intends: the f-string in the `raise` statement references the
undefined variable `k`, so its evaluation fails before any `TypeError`
is constructed. -/
theorem call_other_raises_nameError (b : Bool) (x : Obj) :
    _call (.other b) x = .error (.nameError "name k is not defined") := rfl

/-- Claim C8: a plain numeric or tuple constant definition is returned
unchanged by `_call`, and a set with a numeric-constant definition `n`
under key `k` yields the mapping sending `k` to `n` on every subject. -/
theorem call_const_returns_unchanged (n : Int) (t : List Value) (x : Obj) (k : String) :
    _call (.constInt n) x = .ok (.int n) ∧
    _call (.constTuple t) x = .ok (.tuple t) ∧
    Statistics.apply [(k, .constInt n)] x false = .ok [(k, .int n)] ∧
    dictLookup [(k, .int n)] k = some (.int n) := by
  refine ⟨rfl, rfl, ?_, ?_⟩
  · simp [Statistics.apply, applyAux, _call, dictInsert]
  · simp [dictLookup]

/-- Claim C9: `Statistics.do` is a pure function of its inputs (the
entry list, the subject and the split flag) and holds no
per-invocation state, so two calls with the same arguments return
equal result mappings.  In the embedding the absence of hidden state
is structural: `Statistics.apply` reads nothing but its arguments. -/
theorem apply_deterministic (self : List (String × Defn)) (x : Obj) (split : Bool) :
    Statistics.apply self x split = Statistics.apply self x split := rfl

/-- Claim C4 (supporting theorem for the code bug): whenever the key
of a `MappingStatistics` is truthy, `do` evaluates
`np.array([_call(self.key, k) for k in obj])`, and since `ezstat.py`
never imports numpy the global name `np` is undefined: every such call
raises `NameError` instead of projecting the subject. -/
theorem mappingApply_truthy_key_nameError (key : Defn) (self : List (String × Defn))
    (x : Obj) (split : Bool) (h : key.truthy = true) :
    MappingStatistics.apply (some key) self x split =
      .error (.nameError "name np is not defined") := by
  simp [MappingStatistics.apply, keyTruthy, h]

/-- Witness for C4: the example of the docstring itself, a
`MappingStatistics` with key `mean`, fails with `NameError`. -/
theorem mappingApply_truthy_key_nameError_witness :
    MappingStatistics.apply (some (.str "mean")) [("mean", .str "mean")] obj0 false =
      .error (.nameError "name np is not defined") :=
  mappingApply_truthy_key_nameError (.str "mean") [("mean", .str "mean")] obj0 false (by decide)

/-- Claim C10: a `MappingStatistics` whose key is falsy but not `None`
(the empty string, or the number 0) behaves exactly as if no key were
set, because line 169 tests `if self.key:` (truthiness) rather than
`if self.key is not None:`. -/
theorem mappingApply_falsy_key_no_projection (kd : Defn) (h : kd.truthy = false)
    (self : List (String × Defn)) (x : Obj) (split : Bool) :
    MappingStatistics.apply (some kd) self x split =
      MappingStatistics.apply none self x split ∧
    MappingStatistics.apply (some kd) self x split = Statistics.apply self x split := by
  constructor <;> simp [MappingStatistics.apply, keyTruthy, h]

/-- Witness for C10 at the falsy keys `""` and `0`. -/
theorem mappingApply_falsy_key_no_projection_witness :
    (Defn.truthy (.str "") = false ∧
      MappingStatistics.apply (some (.str "")) [("c", .constInt 3)] obj0 false =
        Statistics.apply [("c", .constInt 3)] obj0 false) ∧
    (Defn.truthy (.constInt 0) = false ∧
      MappingStatistics.apply (some (.constInt 0)) [("c", .constInt 3)] obj0 false =
        Statistics.apply [("c", .constInt 3)] obj0 false) :=
  ⟨⟨by decide,
    (mappingApply_falsy_key_no_projection (.str "") (by decide)
      [("c", .constInt 3)] obj0 false).2⟩,
   ⟨by decide,
    (mappingApply_falsy_key_no_projection (.constInt 0) (by decide)
      [("c", .constInt 3)] obj0 false).2⟩⟩

/-! ## Decimal rendering: round trip and injectivity -/

/-- One step of reading a decimal digit char back into a number. -/
def decStep (a : Nat) (c : Char) : Nat := a * 10 + (c.toNat - 48)

/-- Numeric value of a list of decimal digit characters. -/
def decVal (cs : List Char) : Nat := cs.foldl decStep 0

/-- A decimal digit character stores exactly its code point. -/
theorem toNat_digitChar (d : Nat) (hd : d < 10) :
    (Char.ofNat (48 + d)).toNat = 48 + d := by
  interval_cases d <;> decide

/-- Folding `decStep` over the digits of `n` recovers `n` below the
accumulated prefix, for any sufficient fuel. -/
theorem foldl_decStep_decDigitsAux :
    ∀ (fuel n a : Nat), n < fuel →
      List.foldl decStep a (decDigitsAux fuel n) =
        a * 10 ^ (decDigitsAux fuel n).length + n := by
  intro fuel
  induction fuel with
  | zero => intro n a h; omega
  | succ fuel ih =>
      intro n a _
      by_cases h10 : n < 10
      · simp only [decDigitsAux, if_pos h10, List.foldl_cons, List.foldl_nil,
          List.length_cons, List.length_nil, decStep, toNat_digitChar n h10]
        omega
      · have hdiv : n / 10 < fuel := by
          have h1 : n / 10 < n := Nat.div_lt_self (by omega) (by omega)
          omega
        have hmod : n % 10 < 10 := Nat.mod_lt _ (by omega)
        simp only [decDigitsAux, if_neg h10, List.foldl_append, List.foldl_cons,
          List.foldl_nil, List.length_append, List.length_cons, List.length_nil,
          ih _ a hdiv]
        simp only [decStep, toNat_digitChar _ hmod]
        have hnm : n / 10 * 10 + n % 10 = n := by
          have := Nat.div_add_mod n 10
          omega
        have hpow : 10 ^ ((decDigitsAux fuel (n / 10)).length + (0 + 1)) =
            10 ^ (decDigitsAux fuel (n / 10)).length * 10 := by
          simp [pow_succ]
        rw [hpow]
        ring_nf
        omega

/-- Reading back the decimal digits of `n` yields `n`. -/
theorem decVal_decDigits (n : Nat) : decVal (decDigits n) = n := by
  have h := foldl_decStep_decDigitsAux (n + 1) n 0 (Nat.lt_succ_self n)
  simpa [decVal, decDigits] using h

/-- Distinct numbers have distinct decimal digit lists. -/
theorem decDigits_injective (m n : Nat) (h : decDigits m = decDigits n) : m = n := by
  have hm := decVal_decDigits m
  rw [h, decVal_decDigits n] at hm
  omega

/-- The decimal rendering used in the split keys is injective. -/
theorem natToString_injective (m n : Nat) (h : natToString m = natToString n) : m = n := by
  apply decDigits_injective
  simpa [natToString] using congrArg String.data h

/-- The character data underlying a split key. -/
theorem splitKey_data (k : String) (i : Nat) :
    (splitKey k i).data = k.data ++ ('-' :: decDigits i) := by
  show (k.data ++ "-".data) ++ (natToString i).data = _
  simp [natToString, List.append_assoc]

/-- Two split keys with the same base name agree only at equal indices. -/
theorem splitKey_right_inj (k : String) (i j : Nat) (h : splitKey k i = splitKey k j) :
    i = j := by
  have hd : k.data ++ ('-' :: decDigits i) = k.data ++ ('-' :: decDigits j) := by
    rw [← splitKey_data, ← splitKey_data, h]
  have h2 : decDigits i = decDigits j := by
    have := List.append_cancel_left hd
    simpa using this
  exact decDigits_injective i j h2

/-- A split key is never the plain base name (it is strictly longer). -/
theorem splitKey_ne_base (k : String) (i : Nat) : splitKey k i ≠ k := by
  intro h
  have hd := congrArg (fun s => s.data.length) h
  simp only [splitKey_data, List.length_append, List.length_cons] at hd
  omega

/-! ## Result-dict lemmas -/

/-- Assigning a key absent from the dict appends the new binding. -/
theorem dictInsert_of_fresh (res : List (String × Value)) (k : String) (v : Value)
    (h : ∀ p ∈ res, p.1 ≠ k) : dictInsert res k v = res ++ [(k, v)] := by
  induction res with
  | nil => rfl
  | cons hd tl ih =>
      obtain ⟨n, w⟩ := hd
      have hn : n ≠ k := h (n, w) (List.mem_cons_self _ _)
      simp [dictInsert, hn, ih fun p hp => h p (List.mem_cons_of_mem _ hp)]

/-- Looking up a key absent from every binding yields nothing. -/
theorem dictLookup_eq_none (res : List (String × Value)) (k : String)
    (h : ∀ p ∈ res, p.1 ≠ k) : dictLookup res k = none := by
  induction res with
  | nil => rfl
  | cons hd tl ih =>
      obtain ⟨n, w⟩ := hd
      have hn : n ≠ k := h (n, w) (List.mem_cons_self _ _)
      simp [dictLookup, hn, ih fun p hp => h p (List.mem_cons_of_mem _ hp)]

/-- The tuple-splitting loop, started at index `i` on a dict whose keys
avoid all split keys of index `≥ i`, appends exactly one binding per
tuple element, keyed by its 0-based index, in tuple order. -/
theorem splitInsertFrom_eq_append (k : String) :
    ∀ (elems : List Value) (i : Nat) (res : List (String × Value)),
      (∀ p ∈ res, ∀ j, i ≤ j → p.1 ≠ splitKey k j) →
      splitInsertFrom k i res elems =
        res ++ (List.enumFrom i elems).map fun p => (splitKey k p.1, p.2) := by
  intro elems
  induction elems with
  | nil => intro i res _; simp [splitInsertFrom, List.enumFrom]
  | cons r rest ih =>
      intro i res hres
      have hfresh : ∀ p ∈ res, p.1 ≠ splitKey k i :=
        fun p hp => hres p hp i (Nat.le_refl i)
      have hres' : ∀ p ∈ res ++ [(splitKey k i, r)], ∀ j, i + 1 ≤ j → p.1 ≠ splitKey k j := by
        intro p hp j hj
        rcases List.mem_append.1 hp with hp | hp
        · exact hres p hp j (by omega)
        · simp only [List.mem_singleton] at hp
          subst hp
          intro hk
          have := splitKey_right_inj k i j hk
          omega
      calc splitInsertFrom k i res (r :: rest)
          = splitInsertFrom k (i + 1) (dictInsert res (splitKey k i) r) rest := rfl
        _ = splitInsertFrom k (i + 1) (res ++ [(splitKey k i, r)]) rest := by
            rw [dictInsert_of_fresh res _ r hfresh]
        _ = (res ++ [(splitKey k i, r)]) ++
              ((List.enumFrom (i + 1) rest).map fun p => (splitKey k p.1, p.2)) :=
            ih (i + 1) _ hres'
        _ = res ++ (List.enumFrom i (r :: rest)).map (fun p => (splitKey k p.1, p.2)) := by
            simp [List.enumFrom, List.append_assoc]

/-- A sample subject whose `shape` attribute is the tuple `(100, 100)`. -/
def objT : Obj := ⟨[("shape", .val (.tuple [.int 100, .int 100]))]⟩

/-- Claim C3: for an entry whose computed value is a tuple, `apply`
with `split = true` emits one entry per tuple element named with the
0-based index suffix, in tuple order, and the plain name is absent
from the result; with `split = false` (the default) it emits the
single entry mapping the name to the tuple unchanged. -/
theorem apply_split_tuple (k : String) (s : Defn) (x : Obj) (ts : List Value)
    (h : _call s x = .ok (.tuple ts)) :
    Statistics.apply [(k, s)] x true =
      .ok ((List.enum ts).map fun p => (splitKey k p.1, p.2)) ∧
    dictLookup ((List.enum ts).map fun p => (splitKey k p.1, p.2)) k = none ∧
    Statistics.apply [(k, s)] x false = .ok [(k, .tuple ts)] := by
  refine ⟨?_, ?_, ?_⟩
  · have hsplit := splitInsertFrom_eq_append k ts 0 [] (by intro p hp; simp at hp)
    simp only [Statistics.apply, applyAux, h]
    rw [hsplit]
    rfl
  · apply dictLookup_eq_none
    intro p hp
    obtain ⟨q, hq, rfl⟩ := List.mem_map.1 hp
    exact splitKey_ne_base k q.1
  · simp [Statistics.apply, applyAux, h, dictInsert]

/-- Witness for C3: the docstring example `shape == (100, 100)` split
into `shape-0` and `shape-1`, and kept whole without splitting. -/
theorem apply_split_tuple_witness :
    Statistics.apply [("shape", .str "shape")] objT true =
      .ok [("shape-0", .int 100), ("shape-1", .int 100)] ∧
    dictLookup [("shape-0", Value.int 100), ("shape-1", Value.int 100)] "shape" = none ∧
    Statistics.apply [("shape", .str "shape")] objT false =
      .ok [("shape", .tuple [.int 100, .int 100])] := by
  have h := apply_split_tuple "shape" (.str "shape") objT [.int 100, .int 100] rfl
  refine ⟨?_, ?_, h.2.2⟩
  · rw [h.1]; rfl
  · exact h.2.1

/-- The loop of `Statistics.do` aborts with the first exception: once
every earlier definition evaluates successfully and one definition
raises, the whole call returns that exact error, whatever the partial
dict built so far. -/
theorem applyAux_error_of_first (x : Obj) (split : Bool) (e : Err) (k : String) (s : Defn)
    (post : List (String × Defn)) (hs : _call s x = .error e) :
    ∀ (pre : List (String × Defn)) (res : List (String × Value)),
      (∀ p ∈ pre, ∃ v, _call p.2 x = Except.ok v) →
      applyAux x split (pre ++ (k, s) :: post) res = .error e := by
  intro pre
  induction pre with
  | nil =>
      intro res _
      simp [applyAux, hs]
  | cons hd tl ih =>
      intro res hpre
      obtain ⟨v, hv⟩ := hpre hd (List.mem_cons_self _ _)
      obtain ⟨k1, s1⟩ := hd
      simp only [List.cons_append, applyAux, hv]
      exact ih _ fun p hp => hpre p (List.mem_cons_of_mem _ hp)

/-- Claim C6: if evaluating a definition fails, `apply` propagates that
failure unchanged (including arbitrary errors raised by user
callables), the call aborts at the first failing definition, and no
partial result mapping is returned: the outcome is the error itself,
never an `ok` dict. -/
theorem apply_propagates_first_error (pre : List (String × Defn)) (k : String) (s : Defn)
    (post : List (String × Defn)) (x : Obj) (split : Bool) (e : Err)
    (hpre : ∀ p ∈ pre, ∃ v, _call p.2 x = Except.ok v)
    (hs : _call s x = .error e) :
    Statistics.apply (pre ++ (k, s) :: post) x split = .error e :=
  applyAux_error_of_first x split e k s post hs pre [] hpre

/-- Witness for C6: a user callable raising in the middle of three
definitions aborts the whole call with that exact error. -/
theorem apply_propagates_first_error_witness :
    Statistics.apply [("a", .constInt 1),
      ("bad", .callable fun _ => .error (.userError "boom")),
      ("b", .constInt 2)] obj0 false = .error (.userError "boom") :=
  apply_propagates_first_error [("a", .constInt 1)] "bad"
    (.callable fun _ => .error (.userError "boom")) [("b", .constInt 2)] obj0 false
    (.userError "boom")
    (by
      intro p hp
      simp only [List.mem_singleton] at hp
      subst hp
      exact ⟨.int 1, rfl⟩)
    rfl
